import Mathlib

/-!
Verification of the Hearth recipe-extraction engine.

This file gives a shallow embedding in Lean 4 of the parts of the Hearth
repository that the specification's claims are about:

* the field normalizer, content classifier, error-page classifier and
  validity gates of `SimpleScrapingService` (src/unnamed/part_003);
* the rendered-tier validity gate and extraction loops of
  `RecipeScrapingService` (src/unnamed/part_004);
* the job orchestrator of `scrapingController`
  (src/server/src/controllers/scrapingController.ts).

JavaScript strings are modelled as Lean `String`/`List Char`; JavaScript
numbers as `Nat` or `ℚ` (the non-finite values NaN/Infinity, which the
program can only produce from inputs outside every claim, are not
distinguished: a `ℚ` division by zero yields 0 where JS yields Infinity).
The anchored regular expressions used by the code are embedded as
executable matching functions whose backtracking order follows the
JavaScript engine (leftmost match, greedy quantifiers, most recent
quantifier backtracks first).  Asynchronous fire-and-forget pipeline
launches are modelled by returning the list of `(url, jobId)` pairs for
which an extraction was started.
-/

namespace Hearth

/-! ## Character and string primitives -/

/-- ASCII lower-casing of one character, the effect of JS
`String.prototype.toLowerCase` on the ASCII inputs used here. -/
def lowerChar (c : Char) : Char :=
  if 'A' ≤ c ∧ c ≤ 'Z' then Char.ofNat (c.toNat + 32) else c

/-- Model of JS `toLowerCase` on a string. -/
def jsToLower (s : String) : String :=
  ⟨s.data.map lowerChar⟩

/-- The character class `\s` of JS regular expressions (common members). -/
def isSpaceChar (c : Char) : Bool :=
  c = ' ' ∨ c = '\t' ∨ c = '\n' ∨ c = '\r' ∨ c = '\x0b' ∨ c = '\x0c'

/-- Model of JS `String.prototype.trim`: strip leading and trailing
whitespace. -/
def jsTrim (s : String) : String :=
  ⟨((s.data.dropWhile isSpaceChar).reverse.dropWhile isSpaceChar).reverse⟩

/-- The character class `[a-zA-Z]`. -/
def isAsciiLetter (c : Char) : Bool :=
  ('a' ≤ c ∧ c ≤ 'z') ∨ ('A' ≤ c ∧ c ≤ 'Z')

/-- The word-character class `\w` = `[A-Za-z0-9_]` used by `\b`. -/
def isWordChar (c : Char) : Bool :=
  isAsciiLetter c ∨ c.isDigit ∨ c = '_'

/-- `containsList pat s`: `pat` occurs as a contiguous sublist of `s`;
model of JS `String.prototype.includes`. -/
def containsList (pat : List Char) : List Char → Bool
  | [] => pat.isEmpty
  | c :: rest => pat.isPrefixOf (c :: rest) || containsList pat rest

/-- Model of JS `haystack.includes(needle)`. -/
def strContains (haystack needle : String) : Bool :=
  containsList needle.data haystack.data

/-- Numeric value of a digit string; the value JS `parseInt`/`parseFloat`
give to a string of decimal digits. -/
def digitsVal (l : List Char) : Nat :=
  l.foldl (fun acc c => acc * 10 + (c.toNat - 48)) 0

/-- Model of JS `parseFloat` restricted to the unsigned decimal literals
(`digits`, `digits.digits`, `.digits`) that the scraping code feeds it;
`none` stands for NaN. -/
def jsParseFloat (l : List Char) : Option ℚ :=
  let d := l.takeWhile Char.isDigit
  let r := l.drop d.length
  match r with
  | '.' :: rest =>
    let f := rest.takeWhile Char.isDigit
    if d.isEmpty ∧ f.isEmpty then none
    else some ((digitsVal d : ℚ) + (digitsVal f : ℚ) / (10 : ℚ) ^ f.length)
  | _ => if d.isEmpty then none else some (digitsVal d)

/-- Model of JS `str.split(c)` on one separator character. -/
def splitOnChar (c : Char) : List Char → List (List Char)
  | [] => [[]]
  | x :: xs =>
    if x = c then [] :: splitOnChar c xs
    else
      match splitOnChar c xs with
      | [] => [[x]]
      | h :: t => (x :: h) :: t

/-! ## Extraction data model (part_003 / part_004 interfaces) -/

/-- One parsed ingredient, the element type of
`SimpleScrapingResult.ingredients`. -/
structure Ingredient where
  name : String
  amount : ℚ
  unit : Option String := none
  original : Option String := none
deriving DecidableEq, Repr

/-- One instruction step: `{ number, step }`. -/
structure InstructionStep where
  number : Nat
  step : String
deriving DecidableEq, Repr

/-- The `SimpleScrapingResult` interface of part_003. -/
structure SimpleScrapingResult where
  title : Option String := none
  image : Option String := none
  summary : Option String := none
  sourceUrl : String := ""
  sourceName : Option String := none
  readyInMinutes : Option Nat := none
  servings : Option Nat := none
  ingredients : List Ingredient := []
  instructions : List InstructionStep := []
  cuisines : List String := []
  diets : List String := []
  tags : List String := []
deriving DecidableEq, Repr

/-- The nutrition record of part_004's `ScrapingResult`. -/
structure NutritionInfo where
  calories : Option ℚ := none
  protein : Option ℚ := none
  fat : Option ℚ := none
  carbs : Option ℚ := none
  fiber : Option ℚ := none
  sugar : Option ℚ := none
  sodium : Option ℚ := none
deriving DecidableEq, Repr

/-- The `ScrapingResult` interface of part_004 (the rendered tier); it is
`SimpleScrapingResult` plus an optional nutrition record. -/
structure ScrapingResult where
  title : Option String := none
  image : Option String := none
  summary : Option String := none
  sourceUrl : String := ""
  sourceName : Option String := none
  readyInMinutes : Option Nat := none
  servings : Option Nat := none
  ingredients : List Ingredient := []
  instructions : List InstructionStep := []
  cuisines : List String := []
  diets : List String := []
  tags : List String := []
  nutrition : Option NutritionInfo := none
deriving DecidableEq, Repr

/-- JS truthiness of an optional string field: `undefined` and `""` are
falsy, every other string is truthy. -/
def strTruthy : Option String → Bool
  | none => false
  | some s => s ≠ ""

/-! ## Validity gates -/

/-- `SimpleScrapingService.isValidResult` (part_003 lines 608-614):
`(title && (ingredients.length > 0 || instructions.length > 0)) ||
(ingredients.length > 0 && instructions.length > 0)`. -/
def isValidResult (result : SimpleScrapingResult) : Bool :=
  (strTruthy result.title &&
      (decide (result.ingredients.length > 0) ||
        decide (result.instructions.length > 0))) ||
    (decide (result.ingredients.length > 0) &&
      decide (result.instructions.length > 0))

/-- `RecipeScrapingService.isValidRecipe` (part_004 lines 679-681):
`!!(result.title || (result.ingredients.length > 0 &&
result.instructions.length > 0))`. -/
def isValidRecipe (result : ScrapingResult) : Bool :=
  strTruthy result.title ||
    (decide (result.ingredients.length > 0) &&
      decide (result.instructions.length > 0))

/-- The acceptance formula as the specification words it: title present AND
(ingredients non-empty OR instructions non-empty), OR ingredients non-empty
AND instructions non-empty.  Modelled from the spec for comparison with the
two gates of the source. -/
def specGateAccepts (hasTitle ingNonempty insNonempty : Bool) : Bool :=
  (hasTitle && (ingNonempty || insNonempty)) || (ingNonempty && insNonempty)

/-! ## Instruction numbering (claim C3) -/

/-- JS `Array.prototype.map` with its index argument, started at `n`. -/
def mapWithIndex (f : Nat → α → β) : Nat → List α → List β
  | _, [] => []
  | n, a :: as => f n a :: mapWithIndex f (n + 1) as

/-- A per-element loop that can skip elements but keeps counting them, the
shape of the cheerio `.each((i, el) => ...)` loops with an `if` filter. -/
def filterMapWithIndex (f : Nat → α → Option β) : Nat → List α → List β
  | _, [] => []
  | n, a :: as =>
    match f n a with
    | some b => b :: filterMapWithIndex f (n + 1) as
    | none => filterMapWithIndex f (n + 1) as

/-- One entry of a JSON-LD `recipeInstructions` array: either a bare string
or an object with optional `text` and `name` fields. -/
inductive JsonLdInstruction where
  | istr (s : String)
  | iobj (text : Option String) (name : Option String)
deriving DecidableEq, Repr

/-- JS `a || d` for an optional string `a` (empty string is falsy). -/
def jsStrOr (o : Option String) (d : String) : String :=
  match o with
  | some s => if s = "" then d else s
  | none => d

/-- The text picked from a `recipeInstructions` entry in
`parseJsonLdRecipe` (part_003 lines 153-155):
`typeof instruction === 'string' ? instruction :
instruction.text || instruction.name || ''`. -/
def instructionText : JsonLdInstruction → String
  | .istr s => s
  | .iobj t n => jsStrOr t (jsStrOr n "")

/-- The instruction list built by `parseJsonLdRecipe` (part_003 lines
153-160): `.map((instruction, index) => ({ number: index + 1, step:
text.trim() }))`. -/
def jsonLdInstructions (entries : List JsonLdInstruction) : List InstructionStep :=
  mapWithIndex (fun index ins => ⟨index + 1, jsTrim (instructionText ins)⟩) 0 entries

/-- The instruction loop of `SimpleScrapingService.tryMicrodataExtraction`
(part_003 lines 203-212): for each matched element (indexed `i`), take the
trimmed text and, `if (text && text.length > 10)`, push
`{ number: i + 1, step: text }`.  The argument is the list of raw element
texts in document order. -/
def microdataInstructions (texts : List String) : List InstructionStep :=
  filterMapWithIndex
    (fun i raw =>
      let text := jsTrim raw
      if text ≠ "" ∧ text.length > 10 then some ⟨i + 1, text⟩ else none)
    0 texts

/-- The per-selector instruction loop of
`RecipeScrapingService.tryPatternMatching` (part_004 lines 336-348), which
uses the same element-index numbering and the same `text.length > 10`
filter as the microdata loop of part_003. -/
def patternInstructions (texts : List String) : List InstructionStep :=
  filterMapWithIndex
    (fun i raw =>
      let text := jsTrim raw
      if text ≠ "" ∧ text.length > 10 then some ⟨i + 1, text⟩ else none)
    0 texts

/-! ## Field normalizer: ingredient line parser (part_003 lines 525-546)

The line parser matches the anchored regular expression
`/^(\d+(?:\/\d+)?(?:\.\d+)?)\s*([a-zA-Z]+)?\s+(.+)$/`.  The numeric groups
are embedded greedily: giving back characters from `\d+` or skipping a
present `(?:\/\d+)?` / `(?:\.\d+)?` group leaves a digit, `/` or `.` as
the next character, which none of `\s*`, `[a-zA-Z]+`, `\s+` can consume,
so greedy commitment is equivalent to full backtracking there.  The tail
`(\s*)([a-zA-Z]+)?(\s+)(.+)$` is embedded with the engine's backtracking
order: `\s*` from longest to empty, the optional unit from longest to
one letter and then absent, `\s+` from longest to one character, and
`.` matching any character except a newline. -/

/-- Try `(\s+)(.+)$` on `rest`, where `p` counts the whitespace characters
`\s+` consumes, tried from `p` down to 1. -/
def findSpaceSplit : Nat → List Char → Option (List Char)
  | 0, _ => none
  | p + 1, rest =>
    let tail := rest.drop (p + 1)
    if tail ≠ [] ∧ tail.all (fun c => c ≠ '\n') then some tail
    else findSpaceSplit p rest

/-- Try `([a-zA-Z]+)?(\s+)(.+)$` on `t`, with the unit group taking `u`
letters, tried from `u` down to 1 and then absent. -/
def unitLoopGo : Nat → List Char → Option (Option (List Char) × List Char)
  | 0, t => (findSpaceSplit (t.takeWhile isSpaceChar).length t).map (fun n => (none, n))
  | u + 1, t =>
    let rest := t.drop (u + 1)
    match findSpaceSplit (rest.takeWhile isSpaceChar).length rest with
    | some n => some (some (t.take (u + 1)), n)
    | none => unitLoopGo u t

/-- Try `([a-zA-Z]+)?(\s+)(.+)$` at the current position. -/
def unitLoop (t : List Char) : Option (Option (List Char) × List Char) :=
  unitLoopGo (t.takeWhile isAsciiLetter).length t

/-- Try `(\s*)([a-zA-Z]+)?(\s+)(.+)$` on `r`, with `\s*` consuming `k`
characters, tried from `k` down to 0. -/
def wsLoopGo : Nat → List Char → Option (Option (List Char) × List Char)
  | 0, r => unitLoop r
  | k + 1, r =>
    match unitLoop (r.drop (k + 1)) with
    | some res => some res
    | none => wsLoopGo k r

/-- Match `(\s*)([a-zA-Z]+)?(\s+)(.+)$` against `r`, returning the unit
and name captures. -/
def tailMatch (r : List Char) : Option (Option (List Char) × List Char) :=
  wsLoopGo (r.takeWhile isSpaceChar).length r

/-- Full match of `/^(\d+(?:\/\d+)?(?:\.\d+)?)\s*([a-zA-Z]+)?\s+(.+)$/`
against a line, returning the amount, unit and name captures. -/
def ingredientMatch (s : String) : Option (List Char × Option (List Char) × List Char) :=
  let l := s.data
  let d1 := l.takeWhile Char.isDigit
  if d1.isEmpty then none
  else
    let r0 := l.drop d1.length
    let fr :=
      match r0 with
      | '/' :: rest =>
        let d2 := rest.takeWhile Char.isDigit
        if d2.isEmpty then (([] : List Char), r0) else ('/' :: d2, rest.drop d2.length)
      | _ => ([], r0)
    let de :=
      match fr.2 with
      | '.' :: rest =>
        let d3 := rest.takeWhile Char.isDigit
        if d3.isEmpty then (([] : List Char), fr.2) else ('.' :: d3, rest.drop d3.length)
      | _ => ([], fr.2)
    match tailMatch de.2 with
    | some (u, n) => some (d1 ++ fr.1 ++ de.1, u, n)
    | none => none

/-- `SimpleScrapingService.parseFraction` (part_003 lines 540-546):
`if (str.includes('/')) { const [num, den] = str.split('/'); return
parseFloat(num) / parseFloat(den); } return parseFloat(str) || 1;`. -/
def parseFraction (str : String) : ℚ :=
  if containsList ['/'] str.data then
    let parts := splitOnChar '/' str.data
    match jsParseFloat (parts.headD []), jsParseFloat ((parts.drop 1).headD []) with
    | some num, some den => num / den
    | _, _ => 0
  else
    match jsParseFloat str.data with
    | some v => if v = 0 then 1 else v
    | none => 1

/-- The return shape of `parseIngredient`:
`{ name: string; amount: number; unit?: string }`. -/
structure ParsedIngredient where
  name : String
  amount : ℚ
  unit : Option String := none
deriving DecidableEq, Repr

/-- `SimpleScrapingService.parseIngredient` (part_003 lines 525-538): on a
regex match return `{ name: match[3].trim(), amount:
parseFraction(match[1]), unit: match[2] }`, otherwise
`{ name: text, amount: 1 }`. -/
def parseIngredient (text : String) : ParsedIngredient :=
  match ingredientMatch text with
  | some (a, u, n) =>
    { name := jsTrim (String.mk n)
      amount := parseFraction (String.mk a)
      unit := u.map String.mk }
  | none => { name := text, amount := 1 }

/-! ## Field normalizer: duration parser (part_003 lines 548-575) -/

/-- One component of `/PT(?:(\d+)H)?(?:(\d+)M)?/`: greedy digits followed
by the exact (case-sensitive) letter. -/
def matchDigitsThenLetter (letter : Char) (l : List Char) : Option (Nat × List Char) :=
  let d := l.takeWhile Char.isDigit
  if d.isEmpty then none
  else
    match l.drop d.length with
    | c :: rest => if c = letter then some (digitsVal d, rest) else none
    | [] => none

/-- The two capture groups of `/PT(?:(\d+)H)?(?:(\d+)M)?/` applied at the
start of a string beginning with `PT` (the leftmost match; both groups
optional, so the match always succeeds there). -/
def ptComponents (s : String) : Option Nat × Option Nat :=
  let r := s.data.drop 2
  match matchDigitsThenLetter 'H' r with
  | some (h, r1) =>
    (match matchDigitsThenLetter 'M' r1 with
     | some (m, _) => (some h, some m)
     | none => (some h, none))
  | none =>
    match matchDigitsThenLetter 'M' r with
    | some (m, _) => (none, some m)
    | none => (none, none)

/-- Leftmost match of `/(\d+)\s*L(?:...)?/i` where `L` is an hour or
minute marker letter: at each position, greedy digits, then greedy
whitespace, then the letter case-insensitively; returns the digits
capture. -/
def tokenSearch (letter : Char) : List Char → Option Nat
  | [] => none
  | c :: rest =>
    (let l := c :: rest
     let d := l.takeWhile Char.isDigit
     if d.isEmpty then none
     else
       let after := l.drop d.length
       match after.drop (after.takeWhile isSpaceChar).length with
       | x :: _ => if lowerChar x = letter then some (digitsVal d) else none
       | [] => none)
    <|> tokenSearch letter rest

/-- The `hourMatch` of `parseTimeFromText`: `text.match(/(\d+)\s*h(?:our|r)?/i)`. -/
def hourTokenMatch (text : String) : Option Nat :=
  tokenSearch 'h' text.data

/-- The `minuteMatch` of `parseTimeFromText`: `text.match(/(\d+)\s*m(?:in|inute)?/i)`. -/
def minuteTokenMatch (text : String) : Option Nat :=
  tokenSearch 'm' text.data

/-- `SimpleScrapingService.parseTimeFromText` (part_003 lines 564-575):
sum the hour and minute token values; `return minutes || undefined`. -/
def parseTimeFromText (text : String) : Option Nat :=
  if text = "" then none
  else
    let minutes :=
      (match hourTokenMatch text with | some h => h * 60 | none => 0) +
        (match minuteTokenMatch text with | some m => m | none => 0)
    if minutes = 0 then none else some minutes

/-- `SimpleScrapingService.parseTime` (part_003 lines 548-562): empty
input is undefined; a string starting with `PT` always takes the ISO
branch (the regex match cannot fail there) and returns
`hours * 60 + minutes` with absent groups read as 0; otherwise fall back
to `parseTimeFromText`. -/
def parseTime (timeString : String) : Option Nat :=
  if timeString = "" then none
  else if "PT".data.isPrefixOf timeString.data then
    some ((ptComponents timeString).1.getD 0 * 60 + (ptComponents timeString).2.getD 0)
  else parseTimeFromText timeString

/-! ## Content classifier (part_003 lines 411-450) -/

/-- Word-character status of an optional character; string edges count as
non-word, as in the `\b` assertion. -/
def optWordChar : Option Char → Bool
  | some c => isWordChar c
  | none => false

/-- `wbAux pat prev s`: the regex `\bpat\b` matches somewhere in `s`,
where `prev` is the character preceding `s` (`none` at the start of the
subject). -/
def wbAux (pat : List Char) (prev : Option Char) (s : List Char) : Bool :=
  (pat.isPrefixOf s && (optWordChar prev != optWordChar pat.head?) &&
      (optWordChar pat.getLast? != optWordChar ((s.drop pat.length).head?)))
    ||
    match s with
    | [] => false
    | c :: rest => wbAux pat (some c) rest

/-- `wbTest pat s`: JS `/\bpat\b/.test(s)` for a literal `pat`. -/
def wbTest (pat : String) (s : String) : Bool :=
  wbAux pat.data none s.data

/-- The navigation patterns of `isNavigationText` (part_003 lines
415-420), each wrapped in `\b...\b`. -/
def navPatterns : List String :=
  ["log in", "sign up", "menu", "home", "about us", "contact",
   "search", "subscribe", "newsletter", "my account", "settings",
   "help", "privacy", "terms", "cookies", "accept all cookies",
   "advertisement", "follow us", "social media"]

/-- No newline character; the portion matched by `.` repetitions. -/
def noNewline (l : List Char) : Bool :=
  l.all (fun c => c ≠ '\n')

/-- `seqEndAt a b s`: `s` decomposes as `a ++ mid ++ b` with `mid`
newline-free — the regex `a.*b$` anchored at the current position. -/
def seqEndAt (a b s : List Char) : Bool :=
  a.isPrefixOf s &&
    (let r := s.drop a.length
     decide (b.length ≤ r.length) && b.isSuffixOf r &&
       noNewline (r.take (r.length - b.length)))

/-- `seqSearch a b s`: JS `/a.*b$/.test(s)` for literals `a`, `b`. -/
def seqSearch (a b : List Char) (s : List Char) : Bool :=
  seqEndAt a b s ||
    match s with
    | [] => false
    | _ :: rest => seqSearch a b rest

/-- `/^[^.]{10,100}$/`: a period-free string of 10 to 100 characters. -/
def descShortNoPeriod (t : String) : Bool :=
  decide (10 ≤ t.length) && decide (t.length ≤ 100) && t.data.all (fun c => c ≠ '.')

/-- `/^.*—.*recipe\.?$/i`: after lower-casing, the string ends in
`recipe` or `recipe.` and the part before it contains an em dash with no
newline anywhere before the suffix. -/
def descDashRecipe (t : String) : Bool :=
  let l := (jsToLower t).data
  ("recipe".data.isSuffixOf l && noNewline (l.take (l.length - 6)) &&
      (l.take (l.length - 6)).contains '—')
    ||
    ("recipe.".data.isSuffixOf l && noNewline (l.take (l.length - 7)) &&
      (l.take (l.length - 7)).contains '—')

/-- `SimpleScrapingService.isRecipeDescription` (part_003 lines 440-450):
any of the four description patterns matches the trimmed text. -/
def isRecipeDescription (text : String) : Bool :=
  let t := jsTrim text
  descShortNoPeriod t ||
    seqSearch "cooked in".data "sauce".data t.data ||
    seqSearch "style".data "recipe".data t.data ||
    descDashRecipe t

/-- `SimpleScrapingService.isNavigationText` (part_003 lines 411-438):
word-boundary navigation patterns against the lower-cased text; in
instruction context also the description filter, otherwise a 500
character cap. -/
def isNavigationText (text : String) (isInstructionContext : Bool := false) : Bool :=
  let lowerText := jsToLower text
  let hasNavKeywords := navPatterns.any (fun p => wbTest p lowerText)
  if isInstructionContext then hasNavKeywords || isRecipeDescription text
  else hasNavKeywords || decide (text.length > 500)

/-! ## Error-page classifier and the lightweight fetch tier -/

/-- The `errorIndicators` of `isErrorPage` (part_003 lines 90-100). -/
def errorIndicators : List String :=
  ["page not found", "404", "error", "not available", "access denied",
   "blocked", "redirected", "please enable javascript", "robot or human"]

/-- `SimpleScrapingService.isErrorPage` (part_003 lines 89-106): some
indicator occurs in the lower-cased page and neither `recipe` nor
`ingredients` does. -/
def isErrorPage (html : String) : Bool :=
  let lowerHtml := jsToLower html
  errorIndicators.any (fun indicator => strContains lowerHtml indicator) &&
    !strContains lowerHtml "recipe" && !strContains lowerHtml "ingredients"

/-- Drop everything up to and including the first occurrence of `pat`. -/
def afterSub (pat : List Char) : List Char → Option (List Char)
  | [] => none
  | c :: rest =>
    if pat.isPrefixOf (c :: rest) then some ((c :: rest).drop pat.length)
    else afterSub pat rest

/-- Simplified model of `extractDomain` (part_003 lines 649-655):
`new URL(url).hostname.replace('www.', '')`, with the hostname read as
the lower-cased text between `://` and the next delimiter and a `www.`
prefix stripped; a string without `://` throws in JS and yields
`Unknown`.  No claim depends on this value. -/
def extractDomain (url : String) : String :=
  match afterSub "://".data url.data with
  | none => "Unknown"
  | some rest =>
    let host := (rest.takeWhile fun c => ¬(c = '/' ∨ c = ':' ∨ c = '?' ∨ c = '#')).map lowerChar
    String.mk (if "www.".data.isPrefixOf host then host.drop 4 else host)

/-- The `CreateRecipeData` shape handed to the persistence collaborator. -/
structure CreateRecipeData where
  title : String
  image : Option String := none
  summary : Option String := none
  sourceUrl : String := ""
  sourceName : String := ""
  readyInMinutes : Option Nat := none
  servings : Option Nat := none
  ingredients : List Ingredient := []
  instructions : List InstructionStep := []
  cuisines : List String := []
  diets : List String := []
  tags : List String := []
deriving DecidableEq, Repr

/-- `SimpleScrapingService.formatRecipeData` (part_003 lines 616-636). -/
def formatRecipeData (result : SimpleScrapingResult) (url : String) : CreateRecipeData :=
  { title := jsStrOr result.title "Scraped Recipe"
    image := result.image
    summary := result.summary
    sourceUrl := url
    sourceName := jsStrOr result.sourceName (extractDomain url)
    readyInMinutes := result.readyInMinutes
    servings := result.servings
    ingredients := result.ingredients
    instructions := result.instructions
    cuisines := result.cuisines
    diets := result.diets
    tags := result.tags }

/-- The strategy cascade of `scrapeWithFetch` (part_003 lines 58-81):
each strategy's candidate is kept only if `isValidResult` accepts it;
the first accepted candidate wins. -/
def firstValid : List (Option SimpleScrapingResult) → Option SimpleScrapingResult
  | [] => none
  | c :: rest =>
    match c with
    | some r => if isValidResult r then some r else firstValid rest
    | none => firstValid rest

/-- `SimpleScrapingService.scrapeWithFetch` (part_003 lines 28-87) after
a successful HTTP fetch of `html`: abort with no result if `isErrorPage`
classifies the page as an error page, otherwise run the three strategies
(JSON-LD, microdata, pattern matching — abstracted as functions of the
page) in order and format the first candidate accepted by the validity
gate. -/
def scrapeWithFetch (tryJsonLd tryMicrodata tryPattern : String → Option SimpleScrapingResult)
    (html url : String) : Option CreateRecipeData :=
  if isErrorPage html then none
  else
    (firstValid [tryJsonLd html, tryMicrodata html, tryPattern html]).map
      (fun r => formatRecipeData r url)

/-! ## Job orchestrator (src/server/src/controllers/scrapingController.ts)

The prisma-backed store is modelled as a list of `scrapedUrl` rows plus
the set of existing recipe record ids.  Each controller returns its HTTP
response, the store after its synchronous part, and the list of
`(url, jobId)` pairs for which a fire-and-forget extraction was
launched. -/

/-- Job status values of a `scrapedUrl` row. -/
inductive JobStatus where
  | processing
  | success
  | failed
deriving DecidableEq, Repr

/-- A `scrapedUrl` row: the URL-keyed scraping job record. -/
structure ScrapedUrl where
  id : Nat
  url : String
  status : JobStatus
  retryCount : Nat
  errorMessage : Option String := none
  recipeId : Option Nat := none
deriving DecidableEq, Repr

/-- The persistence state seen by the controllers. -/
structure Store where
  jobs : List ScrapedUrl
  recipes : List Nat
  nextId : Nat
deriving DecidableEq, Repr

/-- The `url` field of a request body, as JavaScript sees it. -/
inductive UrlField where
  | missing
  | notString
  | jstr (s : String)
deriving DecidableEq, Repr

/-- The `urls` field of a bulk request body. -/
inductive BulkBody where
  | notArray
  | arr (urls : List UrlField)
deriving DecidableEq, Repr

/-- Response of the single-submit endpoint. -/
inductive ScrapeResponse where
  | badRequest (msg : String)
  | cachedSuccess (recipeId : Nat)
  | processing (jobId : Nat)
  deriving DecidableEq, Repr

/-- Response of the bulk endpoint. -/
inductive BulkResponse where
  | badRequest (msg : String)
  | started (jobIds : List Nat)
  deriving DecidableEq, Repr

/-- Response of the retry endpoint. -/
inductive RetryResponse where
  | notFound
  | conflict
  | processing (jobId : Nat)
  deriving DecidableEq, Repr

/-- `prisma.scrapedUrl.upsert({ where: { url }, update: { status:
'processing', retryCount: { increment: 1 } }, create: { url, status:
'processing' } })`: returns the id of the upserted row and the new
store. -/
def upsertJob (store : Store) (url : String) : Nat × Store :=
  match store.jobs.find? (fun j => j.url == url) with
  | some j =>
    (j.id,
      { store with
          jobs := store.jobs.map fun x =>
            if x.url == url then
              { x with status := .processing, retryCount := x.retryCount + 1 }
            else x })
  | none =>
    (store.nextId,
      { store with
          jobs := store.jobs ++
            [{ id := store.nextId, url := url, status := .processing, retryCount := 0 }]
          nextId := store.nextId + 1 })

/-- Upsert the job for `url` to `processing` and launch the extraction
pipeline for it (the shared tail of the submit paths). -/
def startJob (store : Store) (url : String) : ScrapeResponse × Store × List (String × Nat) :=
  let r := upsertJob store url
  (.processing r.1, r.2, [(url, r.1)])

/-- `scrapingController.scrapeRecipe` (scrapingController.ts lines
10-133), synchronous part: validate the body, return the cached recipe on
a `success` job whose recipe record still exists, return the existing
handle on a `processing` job, otherwise upsert to `processing` and launch
the pipeline. -/
def scrapeRecipe (store : Store) (body : UrlField) : ScrapeResponse × Store × List (String × Nat) :=
  match body with
  | .missing => (.badRequest "Valid URL is required", store, [])
  | .notString => (.badRequest "Valid URL is required", store, [])
  | .jstr url =>
    if url = "" then (.badRequest "Valid URL is required", store, [])
    else
      match store.jobs.find? (fun j => j.url == url) with
      | some j =>
        match j.status, j.recipeId with
        | .success, some rid =>
          if store.recipes.contains rid then (.cachedSuccess rid, store, [])
          else startJob store url
        | .processing, _ => (.processing j.id, store, [])
        | _, _ => startJob store url
      | none => startJob store url

/-- The per-URL loop body of `bulkScrapeRecipes` (scrapingController.ts
lines 331-386): skip non-string entries; for each string entry upsert to
`processing` (incrementing `retryCount` on an existing row) and launch
the pipeline, with no look at the existing job's status or cached
recipe. -/
def bulkLoop : Store → List UrlField → List Nat × Store × List (String × Nat)
  | store, [] => ([], store, [])
  | store, u :: rest =>
    match u with
    | .jstr url =>
      let r := upsertJob store url
      let t := bulkLoop r.2 rest
      (r.1 :: t.1, t.2.1, (url, r.1) :: t.2.2)
    | _ => bulkLoop store rest

/-- `scrapingController.bulkScrapeRecipes` (scrapingController.ts lines
317-397): reject a non-array or empty body, reject more than 10 URLs,
then run the per-URL loop. -/
def bulkScrapeRecipes (store : Store) (body : BulkBody) :
    BulkResponse × Store × List (String × Nat) :=
  match body with
  | .notArray => (.badRequest "Array of URLs is required", store, [])
  | .arr urls =>
    if urls.length = 0 then (.badRequest "Array of URLs is required", store, [])
    else if urls.length > 10 then (.badRequest "Maximum 10 URLs allowed per batch", store, [])
    else
      let r := bulkLoop store urls
      (.started r.1, r.2.1, r.2.2)

/-- `scrapingController.retryScrapingJob` (scrapingController.ts lines
244-315): 404 on an unknown job id; 400 conflict if the job is already
`processing`; otherwise set the job to `processing`, increment its
`retryCount`, and relaunch the pipeline for its URL. -/
def retryScrapingJob (store : Store) (jobId : Nat) :
    RetryResponse × Store × List (String × Nat) :=
  match store.jobs.find? (fun j => j.id == jobId) with
  | none => (.notFound, store, [])
  | some j =>
    if j.status = .processing then (.conflict, store, [])
    else
      (.processing j.id,
        { store with
            jobs := store.jobs.map fun x =>
              if x.id == jobId then
                { x with status := .processing, retryCount := x.retryCount + 1 }
              else x },
        [(j.url, j.id)])

/-! ## Helper lemmas -/

/-- The step numbers produced by a `map`-with-index loop starting at `n`
are `n+1, n+2, ...`. -/
theorem mapWithIndex_number_eq {α : Type} (g : α → String) (n : Nat) (l : List α) :
    (mapWithIndex (fun i t => (⟨i + 1, g t⟩ : InstructionStep)) n l).map
        InstructionStep.number = List.range' (n + 1) l.length := by
  induction l generalizing n with
  | nil => simp [mapWithIndex]
  | cons a t ih =>
    simp only [mapWithIndex, List.map_cons, List.length_cons, List.range'_succ, ih]

/-- A `map`-with-index loop keeps the list length. -/
theorem mapWithIndex_length {α β : Type} (f : Nat → α → β) (n : Nat) (l : List α) :
    (mapWithIndex f n l).length = l.length := by
  induction l generalizing n with
  | nil => rfl
  | cons a t ih => simp [mapWithIndex, ih]

/-- A one-character needle occurs in any list containing it. -/
theorem containsList_single_append (c : Char) (a b : List Char) :
    containsList [c] (a ++ c :: b) = true := by
  induction a with
  | nil => simp [containsList, List.isPrefixOf]
  | cons x xs ih => simp [containsList, ih]

/-- Splitting on a character absent from the list yields the whole
list. -/
theorem splitOnChar_of_not_mem (c : Char) (l : List Char) (h : ∀ x ∈ l, x ≠ c) :
    splitOnChar c l = [l] := by
  induction l with
  | nil => rfl
  | cons x xs ih =>
    have hx : ¬x = c := h x (List.mem_cons_self x xs)
    have ih2 := ih (fun y hy => h y (List.mem_cons_of_mem x hy))
    simp [splitOnChar, hx, ih2]

/-- Splitting at the first separator peels off the prefix before it. -/
theorem splitOnChar_append_sep (c : Char) (a b : List Char) (ha : ∀ x ∈ a, x ≠ c) :
    splitOnChar c (a ++ c :: b) = a :: splitOnChar c b := by
  induction a with
  | nil => simp [splitOnChar]
  | cons x xs ih =>
    have hx : ¬x = c := ha x (List.mem_cons_self x xs)
    have ih2 := ih (fun y hy => ha y (List.mem_cons_of_mem x hy))
    simp [splitOnChar, hx, ih2]

/-- `jsParseFloat` on a non-empty digit string is its numeral value. -/
theorem jsParseFloat_all_digits (l : List Char) (h1 : l ≠ [])
    (h2 : ∀ c ∈ l, c.isDigit = true) :
    jsParseFloat l = some (digitsVal l) := by
  have ht : l.takeWhile Char.isDigit = l := List.takeWhile_eq_self_iff.mpr h2
  rcases l with _ | ⟨x, xs⟩
  · exact absurd rfl h1
  · simp only [jsParseFloat, ht, List.drop_length]
    rfl

/-- `find?` after an element-wise update that does not change the search
predicate finds the updated element. -/
theorem find?_map_invariant {α : Type} (l : List α) (p : α → Bool) (g : α → α)
    (hg : ∀ x, p (g x) = p x) (a : α) (h : l.find? p = some a) :
    (l.map g).find? p = some (g a) := by
  rw [List.find?_map]
  have hpg : (p ∘ g) = p := funext hg
  rw [hpg, h]
  rfl

/-! ## Claim C1 -/

/-- Claim C1, counterexample: the candidate with the title `Pasta` and no
ingredients or instructions is rejected by `isValidResult` but accepted
by `isValidRecipe`, so the two gates do not both implement the spec
formula, and the rendered tier does not reject a title-only candidate. -/
theorem C1_counterexample :
    isValidRecipe { title := some "Pasta" } = true ∧
      isValidResult { title := some "Pasta" } = false := by
  decide

/-- Claim C1 (amended): `isValidResult` accepts exactly the spec formula
(title present and one of the lists non-empty, or both lists non-empty),
while `isValidRecipe` accepts exactly when the title is present or both
lists are non-empty — so the rendered tier accepts every candidate with
a title, even with zero ingredients and zero instructions. -/
theorem C1_gates :
    ∀ (r : SimpleScrapingResult) (q : ScrapingResult),
      (isValidResult r = true ↔
        ((strTruthy r.title = true ∧ (r.ingredients ≠ [] ∨ r.instructions ≠ [])) ∨
          (r.ingredients ≠ [] ∧ r.instructions ≠ []))) ∧
      (isValidRecipe q = true ↔
        (strTruthy q.title = true ∨ (q.ingredients ≠ [] ∧ q.instructions ≠ []))) := by
  intro r q
  constructor
  · simp [isValidResult, List.length_pos]
  · simp [isValidRecipe, List.length_pos]

/-! ## Claim C3 -/

/-- Claim C3, counterexample: in the microdata extraction of part_003
and the pattern-matching loop of part_004, the element `Chop.` is
skipped by the `length > 10` filter and the single surviving step keeps
its source element index, so the candidate has one instruction numbered
2 instead of 1. -/
theorem C3_counterexample :
    microdataInstructions ["Chop.", "Stir the mixture for about five minutes."] =
        [⟨2, "Stir the mixture for about five minutes."⟩] ∧
      (microdataInstructions ["Chop.", "Stir the mixture for about five minutes."]).map
          InstructionStep.number ≠
        List.range' 1 (microdataInstructions
          ["Chop.", "Stir the mixture for about five minutes."]).length ∧
      (patternInstructions ["Chop.", "Stir the mixture for about five minutes."]).map
          InstructionStep.number = [2] := by
  decide

/-- Claim C3 (amended): the structured-data (JSON-LD) strategy numbers
its M instruction steps exactly 1..M with no gaps; the microdata and
pattern-matching loops instead number by source element index after
filtering, so a skipped element produces a gap. -/
theorem C3_jsonld_numbering :
    ∀ entries : List JsonLdInstruction,
      (jsonLdInstructions entries).length = entries.length ∧
        (jsonLdInstructions entries).map InstructionStep.number =
          List.range' 1 entries.length := by
  intro entries
  constructor
  · exact mapWithIndex_length _ 0 entries
  · exact mapWithIndex_number_eq (fun ins => jsTrim (instructionText ins)) 0 entries

/-! ## Claim C5 -/

/-- Claim C5, counterexample: in instruction context the line
`Cook for about 30 minutes, stirring occasionally` is rejected by
`isNavigationText` (through the recipe-description filter), contrary to
the claim that it is not rejected in both contexts. -/
theorem C5_counterexample :
    isNavigationText "Cook for about 30 minutes, stirring occasionally" true = true := by
  decide

/-- Claim C5 (amended): the navigation patterns use word-boundary
matching — `Subscribe to our newsletter` is rejected in both contexts,
and no navigation pattern matches
`Cook for about 30 minutes, stirring occasionally` (so it is not
rejected in the non-instruction context) — but in instruction context
that line is rejected anyway by the recipe-description filter, whose
pattern for period-free fragments of 10 to 100 characters matches it. -/
theorem C5_navigation_filter :
    isNavigationText "Subscribe to our newsletter" false = true ∧
      isNavigationText "Subscribe to our newsletter" true = true ∧
      isNavigationText "Cook for about 30 minutes, stirring occasionally" false = false ∧
      navPatterns.any
          (fun p => wbTest p (jsToLower "Cook for about 30 minutes, stirring occasionally")) =
        false ∧
      isRecipeDescription "Cook for about 30 minutes, stirring occasionally" = true ∧
      isNavigationText "Cook for about 30 minutes, stirring occasionally" true = true := by
  decide

/-! ## Claim C7 -/

/-- Claim C7, counterexample: from `PTabc` no ISO-8601 duration
component parses (both regex groups are absent) and neither an hour nor
a minute token parses, yet `parseTime` returns 0 minutes rather than
undefined, because the `PT` prefix alone satisfies the duration regex. -/
theorem C7_counterexample :
    ptComponents "PTabc" = (none, none) ∧
      hourTokenMatch "PTabc" = none ∧
      minuteTokenMatch "PTabc" = none ∧
      parseTime "PTabc" = some 0 := by
  decide

/-- Claim C7 (amended): `PT1H30M` maps to 90 and `45 minutes` to 45; for
every input that does not begin with `PT` and from which neither an hour
token nor a minute token parses, the result is undefined; but every
input beginning with `PT` takes the ISO branch and returns a number —
0 when no `H`/`M` component is present — never undefined. -/
theorem C7_duration :
    parseTime "PT1H30M" = some 90 ∧
      parseTime "45 minutes" = some 45 ∧
      (∀ s : String, "PT".data.isPrefixOf s.data = false →
        hourTokenMatch s = none → minuteTokenMatch s = none → parseTime s = none) ∧
      (∀ s : String, "PT".data.isPrefixOf s.data = true →
        parseTime s =
          some ((ptComponents s).1.getD 0 * 60 + (ptComponents s).2.getD 0)) := by
  refine ⟨by decide, by decide, ?_, ?_⟩
  · intro s h1 h2 h3
    by_cases hs : s = ""
    · simp [parseTime, hs]
    · simp [parseTime, hs, h1, parseTimeFromText, h2, h3]
  · intro s h
    have hs : s ≠ "" := by
      intro e
      rw [e] at h
      exact absurd h (by decide)
    simp [parseTime, hs, h]

/-- Claim C7, witness: the two universal parts of `C7_duration`
applied at concrete inputs. -/
theorem C7_witness :
    parseTime "no duration here" = none ∧
      parseTime "PTx" = some ((ptComponents "PTx").1.getD 0 * 60 +
        (ptComponents "PTx").2.getD 0) := by
  exact ⟨C7_duration.2.2.1 "no duration here" (by decide) (by decide) (by decide),
    C7_duration.2.2.2 "PTx" (by decide)⟩

/-! ## Claim C8 -/

/-- Claim C8 (confirmed): `1/2 cup sugar` parses to amount 1/2, unit
`cup`, name `sugar`; an amount written as a fraction of digit strings is
the quotient of their values; and every line the pattern does not match
becomes `{ name: line, amount: 1 }` with no unit. -/
theorem C8_ingredient :
    parseIngredient "1/2 cup sugar" =
        { name := "sugar", amount := 1 / 2, unit := some "cup" } ∧
      (∀ sl tl : List Char, sl ≠ [] → tl ≠ [] →
        (∀ c ∈ sl, c.isDigit = true) → (∀ c ∈ tl, c.isDigit = true) →
        digitsVal tl ≠ 0 →
        parseFraction (String.mk (sl ++ '/' :: tl)) =
          (digitsVal sl : ℚ) / (digitsVal tl : ℚ)) ∧
      (∀ line : String, ingredientMatch line = none →
        parseIngredient line = { name := line, amount := 1, unit := none }) := by
  refine ⟨?_, ?_, ?_⟩
  · have h : ingredientMatch "1/2 cup sugar" =
        some (['1', '/', '2'], some ['c', 'u', 'p'], ['s', 'u', 'g', 'a', 'r']) := by
      decide
    rw [parseIngredient, h]
    simp [parseFraction, containsList, List.isPrefixOf, splitOnChar, jsParseFloat,
      digitsVal, jsTrim, isSpaceChar]
  · intro sl tl h1 h2 hd1 hd2 _
    have hslash1 : ∀ x ∈ sl, x ≠ '/' := by
      intro x hx he
      have := hd1 x hx
      rw [he] at this
      exact absurd this (by decide)
    have hslash2 : ∀ x ∈ tl, x ≠ '/' := by
      intro x hx he
      have := hd2 x hx
      rw [he] at this
      exact absurd this (by decide)
    have hdata : (String.mk (sl ++ '/' :: tl)).data = sl ++ '/' :: tl := rfl
    have hsplit : splitOnChar '/' (sl ++ '/' :: tl) = [sl, tl] := by
      rw [splitOnChar_append_sep '/' sl tl hslash1, splitOnChar_of_not_mem '/' tl hslash2]
    rw [parseFraction, hdata, if_pos (containsList_single_append '/' sl tl), hsplit]
    simp [jsParseFloat_all_digits sl h1 hd1, jsParseFloat_all_digits tl h2 hd2]
  · intro line h
    simp [parseIngredient, h]

/-- Claim C8, witness: the two universal parts of `C8_ingredient`
applied at concrete inputs. -/
theorem C8_witness :
    parseFraction (String.mk (['1'] ++ '/' :: ['2'])) =
        (digitsVal ['1'] : ℚ) / (digitsVal ['2'] : ℚ) ∧
      parseIngredient "salt to taste" =
        { name := "salt to taste", amount := 1, unit := none } := by
  exact ⟨C8_ingredient.2.1 ['1'] ['2'] (by decide) (by decide) (by decide)
      (by decide) (by decide),
    C8_ingredient.2.2 "salt to taste" (by decide)⟩

/-! ## Claim C9 -/

/-- Claim C9 (confirmed): a fetched page is classified as an error page
iff some generic failure indicator occurs in its lower-cased text while
neither `recipe` nor `ingredients` occurs; a page containing either
token is never classified as an error page; and on an error page the
lightweight fetch tier returns no result regardless of what the
strategies would extract. -/
theorem C9_error_page :
    ∀ html : String,
      (isErrorPage html = true ↔
        (errorIndicators.any (fun indicator => strContains (jsToLower html) indicator) = true ∧
          strContains (jsToLower html) "recipe" = false ∧
          strContains (jsToLower html) "ingredients" = false)) ∧
      (strContains (jsToLower html) "recipe" = true → isErrorPage html = false) ∧
      (strContains (jsToLower html) "ingredients" = true → isErrorPage html = false) ∧
      (∀ tryJsonLd tryMicrodata tryPattern url, isErrorPage html = true →
        scrapeWithFetch tryJsonLd tryMicrodata tryPattern html url = none) := by
  intro html
  refine ⟨?_, ?_, ?_, ?_⟩
  · simp [isErrorPage, and_assoc]
  · intro h
    simp [isErrorPage, h]
  · intro h
    simp [isErrorPage, h]
  · intro tryJsonLd tryMicrodata tryPattern url h
    simp [scrapeWithFetch, h]

/-- Claim C9, witness: `C9_error_page` applied at concrete pages. -/
theorem C9_witness :
    isErrorPage "<html>404 page</html>" = true ∧
      scrapeWithFetch (fun _ => none) (fun _ => none) (fun _ => none)
          "<html>404 page</html>" "https://example.com" = none ∧
      isErrorPage "<html>404 but my recipe is here</html>" = false := by
  refine ⟨by decide, ?_, ?_⟩
  · exact (C9_error_page "<html>404 page</html>").2.2.2
      (fun _ => none) (fun _ => none) (fun _ => none) "https://example.com" (by decide)
  · exact (C9_error_page "<html>404 but my recipe is here</html>").2.1 (by decide)

/-! ## Claim C4 -/

/-- Claim C4 (confirmed): a repeated submit of a URL whose job is
`success` and whose referenced recipe record still exists returns the
cached recipe immediately, changes nothing in the store (in particular
`retryCount`), and launches no extraction. -/
theorem C4_cached_success :
    ∀ (store : Store) (url : String) (j : ScrapedUrl) (rid : Nat),
      url ≠ "" →
      store.jobs.find? (fun x => x.url == url) = some j →
      j.status = JobStatus.success →
      j.recipeId = some rid →
      rid ∈ store.recipes →
      scrapeRecipe store (.jstr url) = (.cachedSuccess rid, store, []) := by
  intro store url j rid hu hf hs hr hc
  simp [scrapeRecipe, hu, hf, hs, hr, hc]

/-- Claim C4, witness: `C4_cached_success` at a concrete store. -/
theorem C4_witness :
    scrapeRecipe
        { jobs := [{ id := 3, url := "https://example.com/r", status := .success,
                     retryCount := 2, recipeId := some 7 }],
          recipes := [7], nextId := 4 }
        (.jstr "https://example.com/r") =
      (.cachedSuccess 7,
        { jobs := [{ id := 3, url := "https://example.com/r", status := .success,
                     retryCount := 2, recipeId := some 7 }],
          recipes := [7], nextId := 4 },
        []) := by
  exact C4_cached_success _ "https://example.com/r"
    { id := 3, url := "https://example.com/r", status := .success,
      retryCount := 2, recipeId := some 7 } 7
    (by decide) (by decide) rfl rfl (by decide)

/-! ## Claim C6 -/

/-- Claim C6 (confirmed): retrying a `processing` job is rejected with a
conflict and the store is unchanged with nothing launched; retrying a
job in any other status responds `processing`, relaunches the pipeline
for the job's URL, and the job re-enters `processing` with `retryCount`
incremented by exactly 1. -/
theorem C6_retry :
    ∀ (store : Store) (jobId : Nat) (j : ScrapedUrl),
      store.jobs.find? (fun x => x.id == jobId) = some j →
      (j.status = JobStatus.processing →
        retryScrapingJob store jobId = (.conflict, store, [])) ∧
      (j.status ≠ JobStatus.processing →
        (retryScrapingJob store jobId).1 = .processing j.id ∧
        (retryScrapingJob store jobId).2.2 = [(j.url, j.id)] ∧
        (retryScrapingJob store jobId).2.1.jobs.find? (fun x => x.id == jobId) =
          some { j with status := JobStatus.processing, retryCount := j.retryCount + 1 }) := by
  intro store jobId j hf
  constructor
  · intro hp
    simp [retryScrapingJob, hf, hp]
  · intro hp
    have hj := List.find?_some hf
    have h2 : (store.jobs.map (fun x => if x.id == jobId then
          { x with status := JobStatus.processing, retryCount := x.retryCount + 1 }
        else x)).find? (fun x => x.id == jobId) =
        some { j with status := JobStatus.processing, retryCount := j.retryCount + 1 } := by
      have h3 := find?_map_invariant store.jobs (fun x => x.id == jobId)
        (fun x => if x.id == jobId then
            { x with status := JobStatus.processing, retryCount := x.retryCount + 1 }
          else x)
        (by
          intro x
          by_cases hx : (x.id == jobId) = true <;> simp [hx])
        j hf
      simpa [hj] using h3
    refine ⟨?_, ?_, ?_⟩
    · simp [retryScrapingJob, hf, hp]
    · simp [retryScrapingJob, hf, hp]
    · simp only [retryScrapingJob, hf, if_neg hp]
      exact h2

/-- Claim C6, witness: `C6_retry` at concrete stores — the conflict
branch on a `processing` job and the relaunch branch on a `failed`
job. -/
theorem C6_witness :
    retryScrapingJob
        { jobs := [{ id := 0, url := "https://example.com/a", status := .processing,
                     retryCount := 0 }],
          recipes := [], nextId := 1 } 0 =
      (.conflict,
        { jobs := [{ id := 0, url := "https://example.com/a", status := .processing,
                     retryCount := 0 }],
          recipes := [], nextId := 1 },
        []) ∧
      (retryScrapingJob
        { jobs := [{ id := 5, url := "https://example.com/b", status := .failed,
                     retryCount := 1, errorMessage := some "boom" }],
          recipes := [], nextId := 6 } 5).1 = .processing 5 ∧
      (retryScrapingJob
        { jobs := [{ id := 5, url := "https://example.com/b", status := .failed,
                     retryCount := 1, errorMessage := some "boom" }],
          recipes := [], nextId := 6 } 5).2.1.jobs.find? (fun x => x.id == 5) =
        some { id := 5, url := "https://example.com/b", status := .processing,
               retryCount := 2, errorMessage := some "boom" } := by
  refine ⟨?_, ?_, ?_⟩
  · exact (C6_retry _ 0
      { id := 0, url := "https://example.com/a", status := .processing, retryCount := 0 }
      (by decide)).1 rfl
  · exact ((C6_retry _ 5
      { id := 5, url := "https://example.com/b", status := .failed,
        retryCount := 1, errorMessage := some "boom" }
      (by decide)).2 (by decide)).1
  · exact ((C6_retry _ 5
      { id := 5, url := "https://example.com/b", status := .failed,
        retryCount := 1, errorMessage := some "boom" }
      (by decide)).2 (by decide)).2.2

/-! ## Claim C2 -/

/-- Claim C2, counterexample: for a URL whose job is currently
`processing`, a single submit returns the existing handle, leaves the
store unchanged and launches nothing, but the same URL in a bulk
submission is upserted (its `retryCount` rises to 1) and a second
extraction is launched — so `submitBulk` does not apply single-submit
semantics. -/
theorem C2_counterexample :
    scrapeRecipe
        { jobs := [{ id := 0, url := "https://example.com/r", status := .processing,
                     retryCount := 0 }],
          recipes := [], nextId := 1 }
        (.jstr "https://example.com/r") =
      (.processing 0,
        { jobs := [{ id := 0, url := "https://example.com/r", status := .processing,
                     retryCount := 0 }],
          recipes := [], nextId := 1 },
        []) ∧
      bulkScrapeRecipes
        { jobs := [{ id := 0, url := "https://example.com/r", status := .processing,
                     retryCount := 0 }],
          recipes := [], nextId := 1 }
        (.arr [.jstr "https://example.com/r"]) =
      (.started [0],
        { jobs := [{ id := 0, url := "https://example.com/r", status := .processing,
                     retryCount := 1 }],
          recipes := [], nextId := 1 },
        [("https://example.com/r", 0)]) := by
  decide

/-- Claim C2 (amended): the bulk endpoint ignores the existing job's
status: while a single submit of a URL whose job is `processing` returns
the existing handle with no store change and no launch, the same URL in
a bulk body is unconditionally upserted back to `processing` with
`retryCount` incremented by 1 and a fresh extraction is launched. -/
theorem C2_bulk_ignores_status :
    ∀ (store : Store) (url : String) (j : ScrapedUrl),
      url ≠ "" →
      store.jobs.find? (fun x => x.url == url) = some j →
      j.status = JobStatus.processing →
      scrapeRecipe store (.jstr url) = (.processing j.id, store, []) ∧
      (bulkScrapeRecipes store (.arr [.jstr url])).2.2 = [(url, j.id)] ∧
      (bulkScrapeRecipes store (.arr [.jstr url])).2.1.jobs.find? (fun x => x.url == url) =
        some { j with status := JobStatus.processing, retryCount := j.retryCount + 1 } := by
  intro store url j hu hf hs
  have hj := List.find?_some hf
  have h2 : (store.jobs.map (fun x => if x.url == url then
        { x with status := JobStatus.processing, retryCount := x.retryCount + 1 }
      else x)).find? (fun x => x.url == url) =
      some { j with status := JobStatus.processing, retryCount := j.retryCount + 1 } := by
    have h3 := find?_map_invariant store.jobs (fun x => x.url == url)
      (fun x => if x.url == url then
          { x with status := JobStatus.processing, retryCount := x.retryCount + 1 }
        else x)
      (by
        intro x
        by_cases hx : (x.url == url) = true <;> simp [hx])
      j hf
    simpa [hj] using h3
  refine ⟨?_, ?_, ?_⟩
  · simp [scrapeRecipe, hu, hf, hs]
  · simp [bulkScrapeRecipes, bulkLoop, upsertJob, hf]
  · simp only [bulkScrapeRecipes, bulkLoop, upsertJob, hf]
    exact h2

/-- Claim C2, witness: `C2_bulk_ignores_status` at a concrete store. -/
theorem C2_witness :
    scrapeRecipe
        { jobs := [{ id := 9, url := "https://example.com/w", status := .processing,
                     retryCount := 4 }],
          recipes := [], nextId := 10 }
        (.jstr "https://example.com/w") =
      (.processing 9,
        { jobs := [{ id := 9, url := "https://example.com/w", status := .processing,
                     retryCount := 4 }],
          recipes := [], nextId := 10 },
        []) ∧
      (bulkScrapeRecipes
        { jobs := [{ id := 9, url := "https://example.com/w", status := .processing,
                     retryCount := 4 }],
          recipes := [], nextId := 10 }
        (.arr [.jstr "https://example.com/w"])).2.2 = [("https://example.com/w", 9)] := by
  refine ⟨?_, ?_⟩
  · exact (C2_bulk_ignores_status _ "https://example.com/w"
      { id := 9, url := "https://example.com/w", status := .processing, retryCount := 4 }
      (by decide) (by decide) rfl).1
  · exact (C2_bulk_ignores_status _ "https://example.com/w"
      { id := 9, url := "https://example.com/w", status := .processing, retryCount := 4 }
      (by decide) (by decide) rfl).2.1

/-! ## Claim C10 -/

/-- Claim C10 (confirmed): a submission whose body has no `url` or a
non-string `url` gets the 400 response `Valid URL is required`, the job
store is returned unchanged, and no extraction is launched. -/
theorem C10_invalid_body :
    ∀ store : Store,
      scrapeRecipe store .missing = (.badRequest "Valid URL is required", store, []) ∧
        scrapeRecipe store .notString = (.badRequest "Valid URL is required", store, []) := by
  intro store
  exact ⟨rfl, rfl⟩

end Hearth
